import Mathlib

/-!
Verification of the Specwright runtime-enforcement core against its
specification.  The development shallowly embeds the three engines of
`src/specwright`:

* the Error Dispatch Engine (`decorators.handle_errors` / `_apply_strategy`),
* the Type Contract Validator (`decorators.spec`, `validation.validate_inputs`,
  `validation.validate_output`),
* the State Transition Engine (`state_machine.transition`, `StateMachine`,
  `_validate_state_machine_class`).

Python values, exceptions and the relevant dynamic features (isinstance
dispatch, argument binding, list aliasing) are modelled explicitly; every
definition mirrors the corresponding source function.
-/

namespace Specwright

/-! ## Python values

A small universe of Python runtime values, covering the primitive types the
contracts in the claims declare.  `vBool` and `vInt` are distinct
constructors even though the Python `bool` is a subtype of `int`: the value
remembers its concrete runtime class, exactly as `type(value).__name__`
does in the error messages. -/

inductive Value where
  | vNone
  | vBool (b : Bool)
  | vInt (n : Int)
  | vStr (s : String)
deriving DecidableEq, Repr

/-! ## Error Dispatch Engine (`decorators.py`, `handle_errors`)

A Python exception is modelled by the identity of its class (`cls`) together
with the list of classes `isinstance` would accept for it (its class and all
superclasses, i.e. the method-resolution order restricted to exception
classes), plus a message payload. -/

structure PyExc where
  cls : Nat
  mro : List Nat
  msg : String
deriving DecidableEq, Repr

/-- Models `isinstance(e, t)`: the declared type `t` is the own class of the
exception or a superclass of it. -/
def isinstance (e : PyExc) (t : Nat) : Bool :=
  e.mro.contains t

/-- A handling strategy, as accepted by `handle_errors`: the string
`"ignore"`, the string `"log"`, a callable (which receives the caught
exception and may itself raise), or any other literal value. -/
inductive Strategy where
  | ignore
  | log
  | callableS (f : PyExc → Except PyExc Value)
  | literal (v : Value)

/-- One record written to the ambient diagnostics sink by the `"log"`
strategy: the qualified name of the wrapped callable and the caught exception
(carrying its message; `logger.exception` also attaches the traceback). -/
structure LogEntry where
  qualname : String
  exc : PyExc
deriving DecidableEq, Repr

/-- Result of `_apply_strategy`: either the `_RAISE` sentinel (re-raise the
original exception), a value to return, or a new exception raised by a
callable strategy itself. -/
inductive StratResult where
  | reraise
  | value (v : Value)
  | raised (e2 : PyExc)
deriving DecidableEq, Repr

/-- Models `_apply_strategy(strategy, exception, func)` from `decorators.py`,
paired with the records it writes to the diagnostics sink. -/
def _apply_strategy (s : Strategy) (e : PyExc) (fq : String) :
    StratResult × List LogEntry :=
  match s with
  | .ignore => (.value .vNone, [])
  | .log => (.reraise, [⟨fq, e⟩])
  | .callableS f =>
    (match f e with
     | .ok v => .value v
     | .error e2 => .raised e2, [])
  | .literal v => (.value v, [])

/-- Interpretation of a `StratResult` by the `handle_errors` wrapper: the
`_RAISE` sentinel re-raises the original exception. -/
def resolveStrat (r : StratResult) (e : PyExc) : Except PyExc Value :=
  match r with
  | .reraise => .error e
  | .value v => .ok v
  | .raised e2 => .error e2

/-- The scan `for exc_type, strategy in handlers.items(): if isinstance(e,
exc_type)` in declaration order; `none` corresponds to the case where the
enclosing `except catchable` clause does not catch at all. -/
def findHandler (e : PyExc) : List (Nat × Strategy) → Option (Nat × Strategy)
  | [] => none
  | (t, s) :: rest => if isinstance e t then some (t, s) else findHandler e rest

/-- Call-time behaviour of a callable wrapped by `handle_errors(handlers)`.
`body` is the outcome of `fn(*args, **kwargs)`; the result is paired with
the diagnostics-sink records produced during dispatch. -/
def handle_errors_call (handlers : List (Nat × Strategy)) (fq : String)
    (body : Except PyExc Value) : Except PyExc Value × List LogEntry :=
  match body with
  | .ok v => (.ok v, [])
  | .error e =>
    match findHandler e handlers with
    | none => (.error e, [])
    | some (_, s) =>
      let (r, logs) := _apply_strategy s e fq
      (resolveStrat r e, logs)

/-! ## Type Contract Validator (`validation.py`, `decorators.spec`)

Type descriptors cover the declared types the claims exercise; structural
strict matching mirrors the pydantic call `TypeAdapter(T).validate_python(v,
strict=True)`: no numeric coercion, and a `bool` is rejected where `int` is
declared even though the Python `bool` subclasses `int`. -/

inductive TypeDesc where
  | tInt
  | tBool
  | tStr
  | tNone
  | tOptional (inner : TypeDesc)
deriving DecidableEq, Repr

/-- Strict structural validation of a runtime value against a declared
descriptor (`TypeAdapter(hint).validate_python(value, strict=True)`). -/
def strictMatches : TypeDesc → Value → Bool
  | .tInt, .vInt _ => true
  | .tInt, _ => false
  | .tBool, .vBool _ => true
  | .tBool, _ => false
  | .tStr, .vStr _ => true
  | .tStr, _ => false
  | .tNone, .vNone => true
  | .tNone, _ => false
  | .tOptional t, v => v == .vNone || strictMatches t v

/-- A declared parameter: its name and, when present, its default value.
Only positional-or-keyword parameters occur in the specs of this repository. -/
structure Param where
  name : String
  default : Option Value
deriving DecidableEq, Repr

/-- One line of an input-validation report: the name of the offending parameter,
its declared descriptor and the actual value received. -/
structure Mismatch where
  param : String
  expected : TypeDesc
  actual : Value
deriving DecidableEq, Repr

/-- The structured content of the exceptions raised by the validator
(`exceptions.py`): a binding failure carrying the original binding error, an
input report with one entry per offending parameter, an output mismatch, or
a domain exception raised by the wrapped body itself. -/
inductive SpecErr where
  | bindingError (qualname : String) (cause : String)
  | inputError (qualname : String) (mismatches : List Mismatch)
  | outputError (qualname : String) (expected : TypeDesc) (actual : Value)
  | domainExc (e : PyExc)
deriving DecidableEq, Repr

/-- Models `inspect.Signature.bind(*args, **kwargs)` followed by
`bound.apply_defaults()`, for positional-or-keyword parameters: walk the
declared parameters in order, consuming positional arguments first, then
keyword arguments, then defaults; any unbindable call yields the binding
error message `TypeError` would carry. -/
def bindLoop : List Param → List Value → List (String × Value) →
    Except String (List (String × Value))
  | [], [], _ => .ok []
  | [], _ :: _, _ => .error "too many positional arguments"
  | p :: ps, a :: rest, kwargs =>
    if (kwargs.lookup p.name).isSome then
      .error ("multiple values for argument " ++ p.name)
    else
      match bindLoop ps rest kwargs with
      | .error m => .error m
      | .ok bound => .ok ((p.name, a) :: bound)
  | p :: ps, [], kwargs =>
    match kwargs.lookup p.name with
    | some v =>
      match bindLoop ps [] kwargs with
      | .error m => .error m
      | .ok bound => .ok ((p.name, v) :: bound)
    | none =>
      match p.default with
      | some d =>
        match bindLoop ps [] kwargs with
        | .error m => .error m
        | .ok bound => .ok ((p.name, d) :: bound)
      | none => .error ("missing a required argument: " ++ p.name)

/-- Full binding: keyword arguments naming no declared parameter fail the
bind before parameter traversal, as `Signature.bind` rejects unexpected
keyword arguments. -/
def bindArgs (params : List Param) (args : List Value)
    (kwargs : List (String × Value)) : Except String (List (String × Value)) :=
  if kwargs.all (fun kv => params.any (fun p => p.name = kv.fst)) then
    bindLoop params args kwargs
  else
    .error "got an unexpected keyword argument"

/-- The loop body of `validate_inputs`: walk `bound.arguments` in parameter
order, skip the implicit receiver names and parameters without a hint,
strictly validate the rest, and collect one entry per offending parameter. -/
def collectMismatches (hints : List (String × TypeDesc)) :
    List (String × Value) → List Mismatch
  | [] => []
  | (n, v) :: rest =>
    if n = "self" ∨ n = "cls" then collectMismatches hints rest
    else
      match hints.lookup n with
      | none => collectMismatches hints rest
      | some t =>
        if strictMatches t v then collectMismatches hints rest
        else ⟨n, t, v⟩ :: collectMismatches hints rest

/-- Models `validation.validate_inputs(func, hints, args, kwargs)`: bind, apply
defaults, collect every structural mismatch, and raise a single
`InputValidationError` naming all of them. -/
def validate_inputs (fq : String) (params : List Param)
    (hints : List (String × TypeDesc)) (args : List Value)
    (kwargs : List (String × Value)) : Except SpecErr Unit :=
  match bindArgs params args kwargs with
  | .error cause => .error (.bindingError fq cause)
  | .ok bound =>
    match collectMismatches hints bound with
    | [] => .ok ()
    | m :: ms => .error (.inputError fq (m :: ms))

/-- Models `validation.validate_output(func, hints, result)`. -/
def validate_output (fq : String) (hints : List (String × TypeDesc))
    (result : Value) : Except SpecErr Unit :=
  match hints.lookup "return" with
  | none => .ok ()
  | some t =>
    if strictMatches t result then .ok ()
    else .error (.outputError fq t result)

/-- The part of the `spec` wrapper that runs once input validation has
passed (or was disabled): invoke the body, then validate the output when
enabled.  The boolean records whether the underlying callable was invoked. -/
def specRun (vOut : Bool) (fq : String) (hints : List (String × TypeDesc))
    (body : Except SpecErr Value) : Except SpecErr Value × Bool :=
  match body with
  | .error e => (.error e, true)
  | .ok v =>
    if vOut then
      match validate_output fq hints v with
      | .error err => (.error err, true)
      | .ok _ => (.ok v, true)
    else (.ok v, true)

/-- Call-time behaviour of a `@spec`-wrapped callable (`decorators.spec`,
the inner `wrapper`): validate inputs when enabled, invoke the underlying
callable, validate the output when enabled.  `body` is the outcome of
`fn(*args, **kwargs)`; the boolean records whether `fn` was invoked. -/
def specCall (vIn vOut : Bool) (fq : String) (params : List Param)
    (hints : List (String × TypeDesc)) (args : List Value)
    (kwargs : List (String × Value)) (body : Except SpecErr Value) :
    Except SpecErr Value × Bool :=
  if vIn then
    match validate_inputs fq params hints args kwargs with
    | .error err => (.error err, false)
    | .ok _ => specRun vOut fq hints body
  else specRun vOut fq hints body

/-! ## State Transition Engine (`state_machine.py`)

`TransitionMeta.from_states` is a `frozenset[str]`; it is modelled by the
list handed to the `transition` decorator, with membership used as set
membership and `sorted(frozenset(...))` modelled by sorting the
deduplicated list. -/

structure TransitionMeta where
  from_states : List String
  to_state : String
deriving DecidableEq, Repr

/-- The join `", ".join(sorted(meta.from_states))` enumerates the frozenset in
sorted order: deduplicate, then sort lexicographically. -/
def sortedSources (l : List String) : List String :=
  List.insertionSort (fun a b => a ≤ b) l.dedup

/-- The mutable per-instance fields set by `StateMachine.__init__`:
`_state` and `_state_history`. -/
structure MachineState where
  _state : String
  _state_history : List String
deriving DecidableEq, Repr

/-- Models `StateMachine.__init__(self)`: state starts at the declared initial
state; with history tracking the history starts as the one-element list
holding the initial state, otherwise it is empty. -/
def mkMachine (initial : String) (track_history : Bool) : MachineState :=
  { _state := initial
    _state_history := if track_history then [initial] else [] }

/-- The class-level context a transition wrapper consults: the
`track_history` flag and the optional `on_exit_<state>` / `on_enter_<state>`
hooks looked up by `getattr`.  A hook may raise. -/
structure MachineClass where
  track_history : Bool
  onExit : String → Option (Unit → Except PyExc Unit)
  onEnter : String → Option (Unit → Except PyExc Unit)

/-- Run an optional hook: `getattr` returning nothing is a no-op. -/
def runHook (h : Option (Unit → Except PyExc Unit)) : Except PyExc Unit :=
  match h with
  | none => .ok ()
  | some f => f ()

/-- A failure escaping a guarded transition call: either the engine
raising `InvalidTransitionError` — carrying the attempted operation, the current
state, the declared target and the sorted valid source states, exactly the
data its message interpolates — or an exception propagated from the body or
a hook. -/
inductive SMFailure where
  | transitionError (method current target : String) (validSources : List String)
  | raised (e : PyExc)
deriving DecidableEq, Repr

/-- The `wrapper` closure built by the `transition` decorator
(`state_machine.py`): guard on the current state, invoke the body, run the
exit hook, commit the new state (appending to history when tracked), run
the enter hook, and return the result of the body.  The result is paired with
the post-call instance fields and a flag recording whether the guarded
body was invoked. -/
def transitionCall (meta : TransitionMeta) (mname : String)
    (cls : MachineClass) (body : MachineState → Except PyExc Value)
    (self : MachineState) :
    Except SMFailure Value × MachineState × Bool :=
  if self._state ∈ meta.from_states then
    match body self with
    | .error e => (.error (.raised e), self, true)
    | .ok result =>
      match runHook (cls.onExit self._state) with
      | .error e => (.error (.raised e), self, true)
      | .ok _ =>
        let committed : MachineState :=
          { _state := meta.to_state
            _state_history :=
              if cls.track_history then self._state_history ++ [meta.to_state]
              else self._state_history }
        match runHook (cls.onEnter meta.to_state) with
        | .error e => (.error (.raised e), committed, true)
        | .ok _ => (.ok result, committed, true)
  else
    (.error (.transitionError mname self._state meta.to_state
        (sortedSources meta.from_states)), self, false)

/-- The structured content of the `InvalidStateError`s raised by
`_validate_state_machine_class`. -/
inductive SMDefError where
  | mustDefineStates (clsName : String)
  | mustDefineInitial (clsName : String)
  | initialNotInStates (clsName initial : String)
  | invalidFromStates (attrName clsName : String) (invalid : List String)
  | invalidToState (attrName clsName to_state : String)
deriving DecidableEq, Repr

/-- A state-machine class declaration as `__init_subclass__` observes it:
`states` is `none` when `hasattr(cls, "states")` is false (the base class
only annotates the attribute, so a subclass that never assigns it has
none); `initial_state` likewise; `methods` lists every
`@transition`-decorated attribute `dir(cls)` reaches, inherited ones
included. -/
structure ClassDecl where
  name : String
  states : Option (List String)
  initial_state : Option String
  methods : List (String × TransitionMeta)

/-- The `for attr_name in dir(cls)` loop of
`_validate_state_machine_class`: the source states of each transition must be a
subset of the declared state set and its target a member. -/
def checkTransitions (clsName : String) (states : List String) :
    List (String × TransitionMeta) → Except SMDefError Unit
  | [] => .ok ()
  | (attrName, meta) :: rest =>
    match meta.from_states.filter (fun s => s ∉ states) with
    | [] =>
      if meta.to_state ∈ states then checkTransitions clsName states rest
      else .error (.invalidToState attrName clsName meta.to_state)
    | bad => .error (.invalidFromStates attrName clsName (sortedSources bad))

/-- Models `_validate_state_machine_class(cls)`: non-empty state list, a present
initial state drawn from the state set, and valid transition references. -/
def _validate_state_machine_class (cls : ClassDecl) (states : List String) :
    Except SMDefError Unit :=
  if states.isEmpty then .error (.mustDefineStates cls.name)
  else
    match cls.initial_state with
    | none => .error (.mustDefineInitial cls.name)
    | some init =>
      if init ∈ states then checkTransitions cls.name states cls.methods
      else .error (.initialNotInStates cls.name init)

/-- Models `StateMachine.__init_subclass__`: validation runs only when a `states`
attribute exists on the class. -/
def init_subclass (cls : ClassDecl) : Except SMDefError Unit :=
  match cls.states with
  | none => .ok ()
  | some states => _validate_state_machine_class cls states

/-! ### Aliasing model for the history accessor

`StateMachine.state_history` returns `list(self._state_history)` — a fresh
copy.  To state that mutating the returned list never affects the stored
history or later snapshots, Python list objects are given explicit
identities in a heap of list cells. -/

structure Heap where
  cells : List (List String)
deriving DecidableEq, Repr

/-- Dereference a list object. -/
def Heap.read (h : Heap) (i : Nat) : List String :=
  h.cells.getD i []

/-- In-place mutation of the list object `i` (e.g. `append` or slice
assignment performed by the caller on a snapshot). -/
def Heap.write (h : Heap) (i : Nat) (xs : List String) : Heap :=
  ⟨h.cells.set i xs⟩

/-- Copying via `list(xs)` allocates a fresh list object holding a copy. -/
def Heap.alloc (h : Heap) (xs : List String) : Nat × Heap :=
  (h.cells.length, ⟨h.cells ++ [xs]⟩)

/-- The `state_history` property: return `list(self._state_history)`, a
fresh copy of the stored history, with `histRef` the identity of the
list object `_state_history` of the instance. -/
def state_history_snapshot (h : Heap) (histRef : Nat) : Nat × Heap :=
  h.alloc (h.read histRef)

/-! ## Helper lemmas -/

/-- The scan over a handler list returns the first entry whose declared type
matches the exception, regardless of what follows it. -/
theorem findHandler_append_first (pre : List (Nat × Strategy)) (t : Nat)
    (s : Strategy) (post : List (Nat × Strategy)) (e : PyExc)
    (hpre : ∀ p ∈ pre, isinstance e p.1 = false)
    (hmatch : isinstance e t = true) :
    findHandler e (pre ++ (t, s) :: post) = some (t, s) := by
  induction pre with
  | nil => simp [findHandler, hmatch]
  | cons hd tl ih =>
    obtain ⟨t0, s0⟩ := hd
    have h0 : isinstance e t0 = false := hpre (t0, s0) (by simp)
    have ih2 := ih (fun p hp => hpre p (List.mem_cons_of_mem _ hp))
    simp [findHandler, h0, ih2]

/-- When no declared handler type matches, the scan finds nothing. -/
theorem findHandler_none (handlers : List (Nat × Strategy)) (e : PyExc)
    (hnone : ∀ p ∈ handlers, isinstance e p.1 = false) :
    findHandler e handlers = none := by
  induction handlers with
  | nil => rfl
  | cons hd tl ih =>
    obtain ⟨t0, s0⟩ := hd
    have h0 : isinstance e t0 = false := hnone (t0, s0) (by simp)
    have ih2 := ih (fun p hp => hnone p (List.mem_cons_of_mem _ hp))
    simp [findHandler, h0, ih2]

/-! ## Claim theorems -/

/-- C1: a callable wrapped by `handle_errors` dispatches a raised exception
to the first entry, in declaration order, whose declared type is the
own class of the exception or a superclass (isinstance-style assignability);
the strategy of that entry determines the outcome and all later entries are
ignored even when they also match; when no entry matches, the exception
propagates unmodified. -/
theorem handle_errors_first_match_wins :
    (∀ (pre : List (Nat × Strategy)) (t : Nat) (s : Strategy)
       (post : List (Nat × Strategy)) (e : PyExc) (fq : String),
       (∀ p ∈ pre, isinstance e p.1 = false) → isinstance e t = true →
       handle_errors_call (pre ++ (t, s) :: post) fq (.error e) =
         (resolveStrat (_apply_strategy s e fq).1 e, (_apply_strategy s e fq).2)) ∧
    (∀ (handlers : List (Nat × Strategy)) (e : PyExc) (fq : String),
       (∀ p ∈ handlers, isinstance e p.1 = false) →
       handle_errors_call handlers fq (.error e) = (.error e, [])) := by
  constructor
  · intro pre t s post e fq hpre hmatch
    simp [handle_errors_call, findHandler_append_first pre t s post e hpre hmatch]
  · intro handlers e fq hnone
    simp [handle_errors_call, findHandler_none handlers e hnone]

/-- Witness for C1 at a concrete input: the exception of class 1 with
superclass 2 matches both entries; the first (`"ignore"`) wins and yields
`None`; with no matching entry the exception propagates. -/
theorem handle_errors_first_match_wins_witness :
    handle_errors_call
        [(1, Strategy.ignore), (2, Strategy.literal (Value.vInt 7))] "f"
        (.error ⟨1, [1, 2], "boom"⟩) = (.ok Value.vNone, []) ∧
    handle_errors_call [(3, Strategy.ignore)] "f"
        (.error ⟨1, [1, 2], "boom"⟩) = (.error ⟨1, [1, 2], "boom"⟩, []) := by
  constructor
  · have h := handle_errors_first_match_wins.1 [] 1 Strategy.ignore
      [(2, Strategy.literal (Value.vInt 7))] ⟨1, [1, 2], "boom"⟩ "f"
      (by intro p hp; simp at hp) (by decide)
    simpa [_apply_strategy, resolveStrat] using h
  · exact handle_errors_first_match_wins.2 [(3, Strategy.ignore)]
      ⟨1, [1, 2], "boom"⟩ "f" (by decide)

/-- C6: when the strategy of the first matching entry is `"log"`, the wrapper
records the qualified name of the callable and the exception to the diagnostics
sink and re-raises the original exception; the strategy never suppresses. -/
theorem log_strategy_logs_and_reraises :
    ∀ (pre : List (Nat × Strategy)) (t : Nat)
      (post : List (Nat × Strategy)) (e : PyExc) (fq : String),
    (∀ p ∈ pre, isinstance e p.1 = false) → isinstance e t = true →
    handle_errors_call (pre ++ (t, Strategy.log) :: post) fq (.error e) =
      (.error e, [⟨fq, e⟩]) := by
  intro pre t post e fq hpre hmatch
  simp [handle_errors_call,
    findHandler_append_first pre t Strategy.log post e hpre hmatch,
    _apply_strategy, resolveStrat]

/-- Witness for C6 at a concrete input: the logged record carries the
qualified name and the exception, and the original exception re-raises. -/
theorem log_strategy_logs_and_reraises_witness :
    handle_errors_call [(9, Strategy.log), (2, Strategy.ignore)] "mod.f"
        (.error ⟨9, [9], "bad"⟩) =
      (.error ⟨9, [9], "bad"⟩, [⟨"mod.f", ⟨9, [9], "bad"⟩⟩]) := by
  have h := log_strategy_logs_and_reraises [] 9 [(2, Strategy.ignore)]
    ⟨9, [9], "bad"⟩ "mod.f" (by intro p hp; simp at hp) (by decide)
  simpa using h

/-- C2: if the guarded body of a transition raises, the exception
propagates unmodified and the instance fields — state and, with history
tracking, the history — are exactly what they were before the call; no
partial transition is committed.  (The body is only invoked when the guard
admitted the current state, hence the membership hypothesis.) -/
theorem transition_body_raise_is_atomic :
    ∀ (meta : TransitionMeta) (mname : String) (cls : MachineClass)
      (body : MachineState → Except PyExc Value) (self : MachineState)
      (e : PyExc),
    self._state ∈ meta.from_states → body self = .error e →
    transitionCall meta mname cls body self = (.error (.raised e), self, true) := by
  intro meta mname cls body self e hin hbody
  simp [transitionCall, hin, hbody]

/-- Witness for C2 at a concrete input: a history-tracking machine in state
`"a"` whose body raises keeps state `"a"` and history `["a"]`. -/
theorem transition_body_raise_is_atomic_witness :
    transitionCall ⟨["a"], "b"⟩ "go"
        ⟨true, fun _ => none, fun _ => none⟩
        (fun _ => .error ⟨4, [4], "boom"⟩) ⟨"a", ["a"]⟩ =
      (.error (.raised ⟨4, [4], "boom"⟩), ⟨"a", ["a"]⟩, true) := by
  exact transition_body_raise_is_atomic ⟨["a"], "b"⟩ "go"
    ⟨true, fun _ => none, fun _ => none⟩
    (fun _ => .error ⟨4, [4], "boom"⟩) ⟨"a", ["a"]⟩ ⟨4, [4], "boom"⟩
    (by decide) rfl

/-- C3: a guarded call from a state outside the declared source states
raises an `InvalidTransitionError` carrying the attempted operation, the
current state and the valid source states sorted deterministically; the
body is never invoked and the instance is unchanged.  The source list in
the error
list is sorted and enumerates exactly the declared source set. -/
theorem transition_guard_blocks :
    ∀ (meta : TransitionMeta) (mname : String) (cls : MachineClass)
      (body : MachineState → Except PyExc Value) (self : MachineState),
    self._state ∉ meta.from_states →
    transitionCall meta mname cls body self =
      (.error (.transitionError mname self._state meta.to_state
          (sortedSources meta.from_states)), self, false) ∧
    List.Sorted (fun a b => a ≤ b) (sortedSources meta.from_states) ∧
    (∀ s, s ∈ sortedSources meta.from_states ↔ s ∈ meta.from_states) := by
  intro meta mname cls body self hnotin
  refine ⟨by simp [transitionCall, hnotin], ?_, ?_⟩
  · exact List.sorted_insertionSort _ _
  · intro s
    rw [sortedSources, (List.perm_insertionSort _ _).mem_iff, List.mem_dedup]

/-- Witness for C3 at a concrete input: state `"z"` is not a source of the
transition `["a", "a"] → "c"`; the error lists the deduplicated source
set. -/
theorem transition_guard_blocks_witness :
    transitionCall ⟨["a", "a"], "c"⟩ "go"
        ⟨false, fun _ => none, fun _ => none⟩
        (fun _ => .ok Value.vNone) ⟨"z", []⟩ =
      (.error (.transitionError "go" "z" "c" ["a"]), ⟨"z", []⟩, false) ∧
    ("a" ∈ sortedSources ["a", "a"] ↔ "a" ∈ ["a", "a"]) := by
  have h := transition_guard_blocks ⟨["a", "a"], "c"⟩ "go"
    ⟨false, fun _ => none, fun _ => none⟩
    (fun _ => .ok Value.vNone) ⟨"z", []⟩ (by decide)
  refine ⟨?_, h.2.2 "a"⟩
  have hs : sortedSources ["a", "a"] = ["a"] := rfl
  simpa [hs] using h.1

/-- Reading a freshly allocated list object yields the allocated contents. -/
theorem Heap.read_alloc_new (h : Heap) (xs : List String) :
    (h.alloc xs).2.read (h.alloc xs).1 = xs := by
  simp [Heap.alloc, Heap.read, List.getD, List.getElem?_append_right (Nat.le_refl _)]

/-- Allocation does not disturb existing list objects. -/
theorem Heap.read_alloc_old (h : Heap) (xs : List String) (j : Nat)
    (hj : j < h.cells.length) : (h.alloc xs).2.read j = h.read j := by
  simp [Heap.alloc, Heap.read, List.getD, List.getElem?_append, hj]

/-- Mutating one list object does not change a different one. -/
theorem Heap.read_write_ne (h : Heap) (i j : Nat) (xs : List String)
    (hne : i ≠ j) : (h.write i xs).read j = h.read j := by
  simp [Heap.write, Heap.read, List.getD, List.getElem?_set_ne hne]

/-- C7: with history tracking enabled, the history starts as the
single-element sequence holding the initial state; a committed transition
appends exactly the target state; a guard failure, a body exception or an
exit-hook exception leaves the instance untouched; and the history accessor
returns a fresh snapshot, so mutating a returned list changes neither the
stored history nor any later snapshot. -/
theorem history_tracking_invariants :
    (∀ initial : String, (mkMachine initial true)._state_history = [initial]) ∧
    (∀ (meta : TransitionMeta) (mname : String) (cls : MachineClass)
       (body : MachineState → Except PyExc Value) (self : MachineState)
       (v : Value),
       cls.track_history = true → self._state ∈ meta.from_states →
       body self = .ok v → runHook (cls.onExit self._state) = .ok () →
       (transitionCall meta mname cls body self).2.1._state_history =
         self._state_history ++ [meta.to_state]) ∧
    (∀ (meta : TransitionMeta) (mname : String) (cls : MachineClass)
       (body : MachineState → Except PyExc Value) (self : MachineState),
       self._state ∉ meta.from_states →
       (transitionCall meta mname cls body self).2.1 = self) ∧
    (∀ (meta : TransitionMeta) (mname : String) (cls : MachineClass)
       (body : MachineState → Except PyExc Value) (self : MachineState)
       (e : PyExc),
       body self = .error e →
       (transitionCall meta mname cls body self).2.1 = self) ∧
    (∀ (meta : TransitionMeta) (mname : String) (cls : MachineClass)
       (body : MachineState → Except PyExc Value) (self : MachineState)
       (v : Value) (e : PyExc),
       self._state ∈ meta.from_states → body self = .ok v →
       runHook (cls.onExit self._state) = .error e →
       (transitionCall meta mname cls body self).2.1 = self) ∧
    (∀ (h : Heap) (ref : Nat) (ys : List String), ref < h.cells.length →
       (state_history_snapshot h ref).1 ≠ ref ∧
       (state_history_snapshot h ref).2.read (state_history_snapshot h ref).1 =
         h.read ref ∧
       ((state_history_snapshot h ref).2.write
           (state_history_snapshot h ref).1 ys).read ref = h.read ref ∧
       (state_history_snapshot ((state_history_snapshot h ref).2.write
           (state_history_snapshot h ref).1 ys) ref).2.read
         (state_history_snapshot ((state_history_snapshot h ref).2.write
           (state_history_snapshot h ref).1 ys) ref).1 = h.read ref) := by
  refine ⟨?_, ?_, ?_, ?_, ?_, ?_⟩
  · intro initial
    simp [mkMachine]
  · intro meta mname cls body self v htrack hmem hbody hexit
    cases hEnter : runHook (cls.onEnter meta.to_state) with
    | error e => simp [transitionCall, hmem, hbody, hexit, hEnter, htrack]
    | ok u => simp [transitionCall, hmem, hbody, hexit, hEnter, htrack]
  · intro meta mname cls body self hnotin
    simp [transitionCall, hnotin]
  · intro meta mname cls body self e hbody
    by_cases hmem : self._state ∈ meta.from_states
    · simp [transitionCall, hmem, hbody]
    · simp [transitionCall, hmem]
  · intro meta mname cls body self v e hmem hbody hexit
    simp [transitionCall, hmem, hbody, hexit]
  · intro h ref ys href
    have hfst : (state_history_snapshot h ref).1 = h.cells.length := rfl
    have hne : (state_history_snapshot h ref).1 ≠ ref := by
      rw [hfst]; exact (Nat.ne_of_lt href).symm
    have hcontents : (state_history_snapshot h ref).2.read
        (state_history_snapshot h ref).1 = h.read ref :=
      Heap.read_alloc_new h (h.read ref)
    have hstored : ((state_history_snapshot h ref).2.write
        (state_history_snapshot h ref).1 ys).read ref = h.read ref := by
      rw [Heap.read_write_ne _ _ _ _ hne]
      exact Heap.read_alloc_old h (h.read ref) ref href
    refine ⟨hne, hcontents, hstored, ?_⟩
    simp only [state_history_snapshot] at hstored ⊢
    rw [Heap.read_alloc_new]
    exact hstored

/-- Witness for C7 at concrete inputs: a fresh tracked machine has history
`["p"]`; the committed transition `a → b` extends history `["a"]` to
`["a", "b"]`; and overwriting a snapshot of the stored history `["p"]`
leaves the stored history and the next snapshot at `["p"]`. -/
theorem history_tracking_invariants_witness :
    (mkMachine "p" true)._state_history = ["p"] ∧
    (transitionCall ⟨["a"], "b"⟩ "go" ⟨true, fun _ => none, fun _ => none⟩
        (fun _ => .ok Value.vNone) ⟨"a", ["a"]⟩).2.1._state_history =
      ["a", "b"] ∧
    (state_history_snapshot ⟨[["p"]]⟩ 0).1 ≠ 0 ∧
    ((state_history_snapshot ⟨[["p"]]⟩ 0).2.write
        (state_history_snapshot ⟨[["p"]]⟩ 0).1 ["hacked"]).read 0 = ["p"] := by
  have h1 := history_tracking_invariants.1 "p"
  have h2 := history_tracking_invariants.2.1 ⟨["a"], "b"⟩ "go"
    ⟨true, fun _ => none, fun _ => none⟩ (fun _ => .ok Value.vNone)
    ⟨"a", ["a"]⟩ Value.vNone rfl (by decide) rfl rfl
  have h6 := history_tracking_invariants.2.2.2.2.2 ⟨[["p"]]⟩ 0 ["hacked"]
    (by decide)
  exact ⟨h1, by simpa using h2, h6.1, by simpa using h6.2.2.1⟩

/-- Every bound argument that structurally mismatches its declared hint
(and is not an implicit receiver name) contributes an entry to the
collected report. -/
theorem mem_collectMismatches (hints : List (String × TypeDesc))
    (bound : List (String × Value)) (n : String) (v : Value) (t : TypeDesc)
    (hmem : (n, v) ∈ bound) (hself : n ≠ "self") (hcls : n ≠ "cls")
    (hhint : hints.lookup n = some t) (hbad : strictMatches t v = false) :
    Mismatch.mk n t v ∈ collectMismatches hints bound := by
  induction bound with
  | nil => cases hmem
  | cons hd tl ih =>
    obtain ⟨n0, v0⟩ := hd
    rcases List.mem_cons.mp hmem with heq | htl
    · cases heq
      simp [collectMismatches, hself, hcls, hhint, hbad]
    · have ihm := ih htl
      by_cases h0 : n0 = "self" ∨ n0 = "cls"
      · simpa [collectMismatches, h0] using ihm
      · cases hh : hints.lookup n0 with
        | none => simpa [collectMismatches, h0, hh] using ihm
        | some t0 =>
          by_cases hm0 : strictMatches t0 v0
          · simpa [collectMismatches, h0, hh, hm0] using ihm
          · simp only [collectMismatches, if_neg h0, hh, if_neg hm0,
              List.mem_cons]
            exact Or.inr ihm

/-- Every entry of the collected report is a genuine mismatch: it names a
bound, non-receiver parameter whose declared hint strictly rejects the
bound value. -/
theorem collectMismatches_sound (hints : List (String × TypeDesc))
    (bound : List (String × Value)) :
    ∀ m ∈ collectMismatches hints bound,
      m.param ≠ "self" ∧ m.param ≠ "cls" ∧
      hints.lookup m.param = some m.expected ∧
      strictMatches m.expected m.actual = false ∧
      (m.param, m.actual) ∈ bound := by
  induction bound with
  | nil => intro m hm; cases hm
  | cons hd tl ih =>
    obtain ⟨n0, v0⟩ := hd
    intro m hm
    by_cases h0 : n0 = "self" ∨ n0 = "cls"
    · have := ih m (by simpa [collectMismatches, h0] using hm)
      exact ⟨this.1, this.2.1, this.2.2.1, this.2.2.2.1,
        List.mem_cons_of_mem _ this.2.2.2.2⟩
    · cases hh : hints.lookup n0 with
      | none =>
        have := ih m (by simpa [collectMismatches, h0, hh] using hm)
        exact ⟨this.1, this.2.1, this.2.2.1, this.2.2.2.1,
          List.mem_cons_of_mem _ this.2.2.2.2⟩
      | some t0 =>
        by_cases hm0 : strictMatches t0 v0
        · have := ih m (by simpa [collectMismatches, h0, hh, hm0] using hm)
          exact ⟨this.1, this.2.1, this.2.2.1, this.2.2.2.1,
            List.mem_cons_of_mem _ this.2.2.2.2⟩
        · rcases List.mem_cons.mp
            (by simpa [collectMismatches, h0, hh, hm0] using hm) with
            heq | htl
          · subst heq
            push_neg at h0
            exact ⟨h0.1, h0.2, hh, by simpa using hm0, by simp⟩
          · have := ih m htl
            exact ⟨this.1, this.2.1, this.2.2.1, this.2.2.2.1,
              List.mem_cons_of_mem _ this.2.2.2.2⟩

/-- C9, counterexample to the claim as stated: the claim quantifies over
every call to a `@spec`-wrapped callable, without the input-validation
qualifier C4 and C5 carry.  With `@spec(validate_inputs=False)` binding is
skipped entirely — `sig.bind` only runs inside `check_inputs`
(`decorators.py`), which is gated on the flag — so an unbindable call
invokes the underlying callable directly and the raw `TypeError` from
`fn(*args, **kwargs)` propagates instead of a binding-failure contract
violation.  Concretely: two positional arguments against a one-parameter
signature are unbindable, yet with validation disabled the wrapper invokes
the body (flag `true`) and returns its raw `TypeError` unchanged, which is
not the `bindingError` the claim requires. -/
theorem binding_failure_claim_counterexample :
    bindArgs [⟨"x", none⟩] [Value.vInt 1, Value.vInt 2] [] =
      .error "too many positional arguments" ∧
    specCall false true "f" [⟨"x", none⟩] [("x", TypeDesc.tInt)]
        [Value.vInt 1, Value.vInt 2] []
        (.error (.domainExc ⟨7, [7], "too many positional arguments"⟩)) =
      (.error (.domainExc ⟨7, [7], "too many positional arguments"⟩), true) ∧
    (specCall false true "f" [⟨"x", none⟩] [("x", TypeDesc.tInt)]
        [Value.vInt 1, Value.vInt 2] []
        (.error (.domainExc ⟨7, [7], "too many positional arguments"⟩))).1 ≠
      .error (.bindingError "f" "too many positional arguments") := by
  refine ⟨rfl, rfl, ?_⟩
  intro h
  have h2 : SpecErr.domainExc ⟨7, [7], "too many positional arguments"⟩ =
      SpecErr.bindingError "f" "too many positional arguments" :=
    Except.error.inj h
  cases h2

/-- C9 (amended): a call with input validation enabled whose arguments
cannot be bound against the declared parameter list fails with an input
contract violation carrying the original binding error, and the underlying
callable is never invoked. -/
theorem binding_failure_blocks_call :
    ∀ (fq : String) (params : List Param) (hints : List (String × TypeDesc))
      (args : List Value) (kwargs : List (String × Value)) (cause : String)
      (vOut : Bool) (body : Except SpecErr Value),
    bindArgs params args kwargs = .error cause →
    specCall true vOut fq params hints args kwargs body =
      (.error (.bindingError fq cause), false) := by
  intro fq params hints args kwargs cause vOut body hbind
  simp [specCall, validate_inputs, hbind]

/-- Witness for C9 at a concrete input: two positional arguments against a
one-parameter signature cannot be bound; the callable is not invoked. -/
theorem binding_failure_blocks_call_witness :
    specCall true true "f" [⟨"x", none⟩] [("x", TypeDesc.tInt)]
        [Value.vInt 1, Value.vInt 2] [] (.ok (Value.vInt 0)) =
      (.error (.bindingError "f" "too many positional arguments"), false) := by
  exact binding_failure_blocks_call "f" [⟨"x", none⟩] [("x", TypeDesc.tInt)]
    [Value.vInt 1, Value.vInt 2] [] "too many positional arguments" true
    (.ok (Value.vInt 0)) rfl

/-- C4: a boolean argument bound to a parameter declared `int` always fails
strict input validation — the mismatch is reported and the underlying
callable is never invoked — even though the Python `bool` subclasses `int`. -/
theorem bool_never_accepted_for_int :
    ∀ (fq : String) (params : List Param) (hints : List (String × TypeDesc))
      (args : List Value) (kwargs bound : List (String × Value)) (n : String)
      (b : Bool) (vOut : Bool) (body : Except SpecErr Value),
    bindArgs params args kwargs = .ok bound →
    (n, Value.vBool b) ∈ bound →
    hints.lookup n = some TypeDesc.tInt →
    n ≠ "self" → n ≠ "cls" →
    strictMatches TypeDesc.tInt (Value.vBool b) = false ∧
    Mismatch.mk n TypeDesc.tInt (Value.vBool b) ∈ collectMismatches hints bound ∧
    specCall true vOut fq params hints args kwargs body =
      (.error (.inputError fq (collectMismatches hints bound)), false) := by
  intro fq params hints args kwargs bound n b vOut body hbind hmem hhint hself hcls
  have hbad : strictMatches TypeDesc.tInt (Value.vBool b) = false := rfl
  have hin : Mismatch.mk n TypeDesc.tInt (Value.vBool b) ∈
      collectMismatches hints bound :=
    mem_collectMismatches hints bound n (Value.vBool b) TypeDesc.tInt
      hmem hself hcls hhint hbad
  refine ⟨hbad, hin, ?_⟩
  cases hcol : collectMismatches hints bound with
  | nil => rw [hcol] at hin; cases hin
  | cons m ms =>
    have hval : validate_inputs fq params hints args kwargs =
        .error (.inputError fq (m :: ms)) := by
      simp [validate_inputs, hbind, hcol]
    simp [specCall, hval, hcol]

/-- Witness for C4 at a concrete input: passing `True` for `x : int` fails
validation with a report naming `x`, and the body is not invoked. -/
theorem bool_never_accepted_for_int_witness :
    strictMatches TypeDesc.tInt (Value.vBool true) = false ∧
    Mismatch.mk "x" TypeDesc.tInt (Value.vBool true) ∈
      collectMismatches [("x", TypeDesc.tInt)] [("x", Value.vBool true)] ∧
    specCall true true "f" [⟨"x", none⟩] [("x", TypeDesc.tInt)]
        [Value.vBool true] [] (.ok (Value.vInt 0)) =
      (.error (.inputError "f"
          (collectMismatches [("x", TypeDesc.tInt)]
            [("x", Value.vBool true)])), false) := by
  exact bool_never_accepted_for_int "f" [⟨"x", none⟩] [("x", TypeDesc.tInt)]
    [Value.vBool true] [] [("x", Value.vBool true)] "x" true true
    (.ok (Value.vInt 0)) rfl (by decide) rfl (by decide) (by decide)

/-- C5: when at least one bound argument structurally mismatches, the call
fails with a single input violation carrying the full mismatch report —
one entry per offending parameter, covering every mismatched parameter,
each entry genuine — and the underlying callable is not invoked. -/
theorem input_violation_reports_all_mismatches :
    ∀ (fq : String) (params : List Param) (hints : List (String × TypeDesc))
      (args : List Value) (kwargs bound : List (String × Value))
      (vOut : Bool) (body : Except SpecErr Value),
    bindArgs params args kwargs = .ok bound →
    collectMismatches hints bound ≠ [] →
    specCall true vOut fq params hints args kwargs body =
      (.error (.inputError fq (collectMismatches hints bound)), false) ∧
    (∀ (n : String) (v : Value) (t : TypeDesc),
       (n, v) ∈ bound → n ≠ "self" → n ≠ "cls" →
       hints.lookup n = some t → strictMatches t v = false →
       Mismatch.mk n t v ∈ collectMismatches hints bound) ∧
    (∀ m ∈ collectMismatches hints bound,
       hints.lookup m.param = some m.expected ∧
       strictMatches m.expected m.actual = false ∧
       (m.param, m.actual) ∈ bound) := by
  intro fq params hints args kwargs bound vOut body hbind hne
  refine ⟨?_, ?_, ?_⟩
  · cases hcol : collectMismatches hints bound with
    | nil => exact absurd hcol hne
    | cons m ms =>
      have hval : validate_inputs fq params hints args kwargs =
          .error (.inputError fq (m :: ms)) := by
        simp [validate_inputs, hbind, hcol]
      simp [specCall, hval, hcol]
  · intro n v t hmem hself hcls hhint hbad
    exact mem_collectMismatches hints bound n v t hmem hself hcls hhint hbad
  · intro m hm
    have := collectMismatches_sound hints bound m hm
    exact ⟨this.2.2.1, this.2.2.2.1, this.2.2.2.2⟩

/-- Witness for C5 at a concrete input: both `x : int` (given a string) and
`y : str` (given an int) appear in the single report, and the body is not
invoked. -/
theorem input_violation_reports_all_mismatches_witness :
    specCall true true "f" [⟨"x", none⟩, ⟨"y", none⟩]
        [("x", TypeDesc.tInt), ("y", TypeDesc.tStr)]
        [Value.vStr "no", Value.vInt 3] [] (.ok (Value.vInt 0)) =
      (.error (.inputError "f"
          [⟨"x", TypeDesc.tInt, Value.vStr "no"⟩,
           ⟨"y", TypeDesc.tStr, Value.vInt 3⟩]), false) ∧
    Mismatch.mk "y" TypeDesc.tStr (Value.vInt 3) ∈
      collectMismatches [("x", TypeDesc.tInt), ("y", TypeDesc.tStr)]
        [("x", Value.vStr "no"), ("y", Value.vInt 3)] := by
  have h := input_violation_reports_all_mismatches "f"
    [⟨"x", none⟩, ⟨"y", none⟩] [("x", TypeDesc.tInt), ("y", TypeDesc.tStr)]
    [Value.vStr "no", Value.vInt 3] []
    [("x", Value.vStr "no"), ("y", Value.vInt 3)] true (.ok (Value.vInt 0))
    rfl (by decide)
  refine ⟨by simpa using h.1, ?_⟩
  exact h.2.1 "y" (Value.vInt 3) TypeDesc.tStr (by decide) (by decide)
    (by decide) rfl rfl

/-- If any listed transition (inherited ones included) references a source
or target state outside the declared state set, the transition check
fails. -/
theorem checkTransitions_violation (clsName : String) (states : List String)
    (ms : List (String × TransitionMeta)) (mn : String)
    (meta : TransitionMeta) (hmem : (mn, meta) ∈ ms)
    (hviol : (∃ s ∈ meta.from_states, s ∉ states) ∨ meta.to_state ∉ states) :
    ∃ err, checkTransitions clsName states ms = .error err := by
  induction ms with
  | nil => cases hmem
  | cons hd tl ih =>
    obtain ⟨n0, m0⟩ := hd
    cases hf : m0.from_states.filter (fun s => s ∉ states) with
    | cons b bs =>
      refine ⟨.invalidFromStates n0 clsName (sortedSources (b :: bs)), ?_⟩
      simp only [checkTransitions]
      rw [hf]
    | nil =>
      by_cases ht : m0.to_state ∈ states
      · rcases List.mem_cons.mp hmem with heq | htl
        · cases heq
          rcases hviol with ⟨s, hs, hns⟩ | hto
          · have hsf : s ∈ meta.from_states.filter (fun s => s ∉ states) :=
              List.mem_filter.mpr ⟨hs, decide_eq_true hns⟩
            rw [hf] at hsf
            cases hsf
          · exact absurd ht hto
        · obtain ⟨err, herr⟩ := ih htl
          refine ⟨err, ?_⟩
          simp only [checkTransitions]
          rw [hf]
          simpa [ht] using herr
      · refine ⟨.invalidToState n0 clsName m0.to_state, ?_⟩
        simp only [checkTransitions]
        rw [hf]
        simp [ht]

/-- C8: a violated class-level declaration fails at class-definition time
with a definition error: an empty declared state list, a declared initial
state outside the state set, or any transition-guarded operation —
inherited operations included, since the method list covers everything
`dir(cls)` reaches — whose source states or target state leave the declared
state set. -/
theorem class_declaration_violations_fail :
    ∀ (cls : ClassDecl) (sts : List String), cls.states = some sts →
    ((sts = [] → ∃ err, init_subclass cls = .error err) ∧
     (∀ init, cls.initial_state = some init → init ∉ sts →
        ∃ err, init_subclass cls = .error err) ∧
     (∀ (mn : String) (meta : TransitionMeta), (mn, meta) ∈ cls.methods →
        ((∃ s ∈ meta.from_states, s ∉ sts) ∨ meta.to_state ∉ sts) →
        ∃ err, init_subclass cls = .error err)) := by
  intro cls sts hsts
  have hinit : init_subclass cls = _validate_state_machine_class cls sts := by
    simp [init_subclass, hsts]
  refine ⟨?_, ?_, ?_⟩
  · intro hempty
    subst hempty
    exact ⟨.mustDefineStates cls.name,
      by rw [hinit]; simp [_validate_state_machine_class]⟩
  · intro init hi hni
    by_cases hempty : sts.isEmpty
    · exact ⟨.mustDefineStates cls.name,
        by rw [hinit]; simp [_validate_state_machine_class, hempty]⟩
    · exact ⟨.initialNotInStates cls.name init,
        by rw [hinit]; simp [_validate_state_machine_class, hempty, hi, hni]⟩
  · intro mn meta hmem hviol
    by_cases hempty : sts.isEmpty
    · exact ⟨.mustDefineStates cls.name,
        by rw [hinit]; simp [_validate_state_machine_class, hempty]⟩
    · cases hi : cls.initial_state with
      | none =>
        exact ⟨.mustDefineInitial cls.name,
          by rw [hinit]; simp [_validate_state_machine_class, hempty, hi]⟩
      | some init =>
        by_cases hin : init ∈ sts
        · obtain ⟨err, herr⟩ := checkTransitions_violation cls.name sts
            cls.methods mn meta hmem hviol
          exact ⟨err, by
            rw [hinit]
            simpa [_validate_state_machine_class, hempty, hi, hin] using herr⟩
        · exact ⟨.initialNotInStates cls.name init,
            by rw [hinit]; simp [_validate_state_machine_class, hempty, hi, hin]⟩

/-- Witness for C8 at concrete declarations: an initial state outside the
state set fails, and a transition targeting an undeclared state fails. -/
theorem class_declaration_violations_fail_witness :
    (∃ err, init_subclass ⟨"M", some ["a"], some "z", []⟩ = .error err) ∧
    (∃ err, init_subclass
        ⟨"N", some ["a"], some "a", [("go", ⟨["a"], "zz"⟩)]⟩ = .error err) := by
  constructor
  · exact (class_declaration_violations_fail ⟨"M", some ["a"], some "z", []⟩
      ["a"] rfl).2.1 "z" rfl (by decide)
  · exact (class_declaration_violations_fail
      ⟨"N", some ["a"], some "a", [("go", ⟨["a"], "zz"⟩)]⟩ ["a"] rfl).2.2
      "go" ⟨["a"], "zz"⟩ (by decide) (Or.inr (by decide))

/-- C10: a `StateMachine` subclass carrying no `states` attribute is exempt
from class-definition-time validation — `__init_subclass__` returns without
raising — and validation runs exactly when a `states` attribute exists. -/
theorem missing_states_skips_validation :
    ∀ cls : ClassDecl,
    (cls.states = none → init_subclass cls = .ok ()) ∧
    (∀ sts, cls.states = some sts →
       init_subclass cls = _validate_state_machine_class cls sts) := by
  intro cls
  constructor
  · intro h
    simp [init_subclass, h]
  · intro sts h
    simp [init_subclass, h]

/-- Witness for C10 at a concrete declaration: a subclass without `states`
— even one with an out-of-set initial state and an invalid transition —
raises no definition error. -/
theorem missing_states_skips_validation_witness :
    init_subclass ⟨"Abstract", none, some "zz", [("go", ⟨["q"], "r"⟩)]⟩ =
      .ok () := by
  exact (missing_states_skips_validation
    ⟨"Abstract", none, some "zz", [("go", ⟨["q"], "r"⟩)]⟩).1 rfl

end Specwright
